import Mathlib

/-!
Shallow embedding of the ledger / future-transaction engine of the
transaction service (`src/transaction-service/app`).

Monetary amounts are fixed-point decimals with two fractional digits in
the source (`Numeric(15, 2)`); we represent them as integers counting
hundredths, so the source literal `1000000.00` becomes `100000000`.
Dates and timestamps are abstracted to integers / naturals; the ambient
clock (`datetime.utcnow()` / `date.today()`) is passed as an explicit
argument.  Each Python service method commits its partial work to the
database as it goes, so every operation is modelled as a function
`LedgerState -> LedgerState × Except Err α` whose returned state keeps
the commits that happened before an exception was raised.
-/

deriving instance DecidableEq for Except

namespace Bank

/-- Transaction status enum (`app/domain/enums.py`, `TransactionStatus`). -/
inductive TransactionStatus where
  | pending
  | verified
  | processed
  | voided
  | failed
deriving DecidableEq, Repr

/-- Future transaction status enum (`app/domain/enums.py`, `FutureTransactionStatus`). -/
inductive FutureTransactionStatus where
  | scheduled
  | triggered
  | processed
  | scrapped
  | expired
deriving DecidableEq, Repr

/-- Transaction category enum (`app/domain/enums.py`, `TransactionCategory`). -/
inductive TransactionCategory where
  | income
  | expense
deriving DecidableEq, Repr

/-- Trigger type enum (`app/domain/enums.py`, `FutureTransactionTrigger`). -/
inductive FutureTransactionTrigger where
  | automatic
  | manual
deriving DecidableEq, Repr

/-- Error taxonomy (`app/core/exceptions.py`): the exceptions raised by the
repository and service layers that the claims mention. -/
inductive Err where
  | notFound
  | insufficientBalance
  | invalidTransaction
  | alreadyProcessed
deriving DecidableEq, Repr

/-- Account row (`app/domain/models.py`, `Account`): the balance fields, the
active flag, and the soft-delete flag consulted by the repository queries. -/
structure Account where
  id : Nat
  currentBalance : Int
  availableBalance : Int
  isActive : Bool
  isDeleted : Bool
deriving DecidableEq, Repr

/-- Transaction row (`app/domain/models.py`, `Transaction`).  The model
declares no default for `status` and `TransactionRepository.create` never
sets one, so a freshly inserted row carries no status: we model the column
as `Option TransactionStatus`, `none` until some service assigns it. -/
structure Transaction where
  id : Nat
  accountId : Nat
  amount : Int
  category : TransactionCategory
  status : Option TransactionStatus
  processedDate : Option Nat
  createdByUserId : Nat
  isDeleted : Bool
deriving DecidableEq, Repr

/-- Future transaction row (`app/domain/models.py`, `FutureTransaction`).
As for `Transaction`, `status` has no default in the model, hence the
`Option`. -/
structure FutureTransaction where
  id : Nat
  accountId : Nat
  amount : Int
  category : TransactionCategory
  status : Option FutureTransactionStatus
  triggerType : FutureTransactionTrigger
  dueDate : Int
  triggeredDate : Option Nat
  processedDate : Option Nat
  createdByUserId : Nat
  triggeredByUserId : Option Nat
  scrappedByUserId : Option Nat
  isDeleted : Bool
deriving DecidableEq, Repr

/-- The Ledger Store: the three tables plus the id counter from which the
repositories mint fresh primary keys / `transaction_id` tokens. -/
structure LedgerState where
  accounts : List Account
  transactions : List Transaction
  futures : List FutureTransaction
  nextTxnId : Nat
deriving DecidableEq, Repr

/-- Lookup used by `AccountRepository.get`: the first account with the given
id whose `is_deleted` flag is clear. -/
def getAccount (s : LedgerState) (accountId : Nat) : Option Account :=
  s.accounts.find? (fun a => decide (a.id = accountId ∧ a.isDeleted = false))

/-- ORM commit of a mutated `Account` object: every stored row with the same
primary key takes the new field values. -/
def updateAccount (s : LedgerState) (a : Account) : LedgerState :=
  { s with accounts := s.accounts.map (fun b => if b.id = a.id then a else b) }

/-- Lookup by the externally stable transaction id, excluding soft-deleted
rows.  Modelled from the spec: `TransactionService` calls
`TransactionRepository.get_by_transaction_id`, which is absent from
`app/db/repository.py`; the spec describes `Void(transactionID, ...)` as a
lookup by transaction id failing with `NotFound` on an unknown id, and the
sibling `FutureTransactionRepository.get_by_transaction_id` in the source
filters on the id and `is_deleted == False`. -/
def getTransactionByTxnId (s : LedgerState) (txnId : Nat) : Option Transaction :=
  s.transactions.find? (fun t => decide (t.id = txnId ∧ t.isDeleted = false))

/-- ORM commit of a mutated `Transaction` object. -/
def updateTransaction (s : LedgerState) (t : Transaction) : LedgerState :=
  { s with transactions := s.transactions.map (fun u => if u.id = t.id then t else u) }

/-- Lookup used by `FutureTransactionRepository.get_by_transaction_id`. -/
def getFutureByTxnId (s : LedgerState) (txnId : Nat) : Option FutureTransaction :=
  s.futures.find? (fun f => decide (f.id = txnId ∧ f.isDeleted = false))

/-- ORM commit of a mutated `FutureTransaction` object. -/
def updateFuture (s : LedgerState) (f : FutureTransaction) : LedgerState :=
  { s with futures := s.futures.map (fun g => if g.id = f.id then f else g) }

/-- Balance Engine (`AccountRepository.adjust_balance`): a debit raises
`InsufficientBalanceError` when `current_balance < amount`; otherwise the
signed delta is added to both balance columns. -/
def adjust_balance (a : Account) (amount : Int) (credit : Bool) : Except Err Account :=
  if credit = false ∧ a.currentBalance < amount then
    .error .insufficientBalance
  else
    let delta := if credit then amount else -amount
    .ok { a with
            currentBalance := a.currentBalance + delta
            availableBalance := a.availableBalance + delta }

/-- Repository insert (`TransactionRepository.create`): rejects a
non-positive amount with `InvalidTransactionError`, then persists a row
with a fresh id and no status. -/
def txnRepoCreate (accountId : Nat) (amount : Int) (category : TransactionCategory)
    (userId : Nat) (s : LedgerState) : Except Err (LedgerState × Transaction) :=
  if amount ≤ 0 then
    .error .invalidTransaction
  else
    let txn : Transaction :=
      { id := s.nextTxnId
        accountId := accountId
        amount := amount
        category := category
        status := none
        processedDate := none
        createdByUserId := userId
        isDeleted := false }
    .ok ({ s with transactions := s.transactions ++ [txn], nextTxnId := s.nextTxnId + 1 }, txn)

/-- Repository insert (`FutureTransactionRepository.create`): persists a row
with a fresh id; as in the source, no status is assigned. -/
def futRepoCreate (accountId : Nat) (amount : Int) (category : TransactionCategory)
    (triggerType : FutureTransactionTrigger) (dueDate : Int) (userId : Nat)
    (s : LedgerState) : LedgerState × FutureTransaction :=
  let ft : FutureTransaction :=
    { id := s.nextTxnId
      accountId := accountId
      amount := amount
      category := category
      status := none
      triggerType := triggerType
      dueDate := dueDate
      triggeredDate := none
      processedDate := none
      createdByUserId := userId
      triggeredByUserId := none
      scrappedByUserId := none
      isDeleted := false }
  ({ s with futures := s.futures ++ [ft], nextTxnId := s.nextTxnId + 1 }, ft)

/-- The read-only due query (`FutureTransactionRepository.get_due`): rows
whose due date equals the target, whose status is `scheduled`, and which
are not soft-deleted.  The source query has no condition on
`trigger_type`. -/
def get_due (s : LedgerState) (targetDate : Int) : List FutureTransaction :=
  s.futures.filter
    (fun f => decide (f.dueDate = targetDate ∧
      f.status = some .scheduled ∧ f.isDeleted = false))

/-- Transaction Lifecycle Manager create
(`TransactionService.create_transaction`): account lookup (`NotFound`),
expense pre-check against `available_balance`, repository insert, balance
posting, then the status is advanced to `processed` with a processed
date. -/
def create_transaction (accountId : Nat) (amount : Int) (category : TransactionCategory)
    (userId : Nat) (now : Nat) (s : LedgerState) :
    LedgerState × Except Err Transaction :=
  match getAccount s accountId with
  | none => (s, .error .notFound)
  | some acct =>
    if category = .expense ∧ acct.availableBalance < amount then
      (s, .error .insufficientBalance)
    else
      match txnRepoCreate accountId amount category userId s with
      | .error e => (s, .error e)
      | .ok (s1, txn) =>
        match adjust_balance acct amount (category = .income) with
        | .error e => (s1, .error e)
        | .ok acct2 =>
          let s2 := updateAccount s1 acct2
          let txn2 := { txn with status := some .processed, processedDate := some now }
          (updateTransaction s2 txn2, .ok txn2)

/-- Repository void marker.  Modelled from the spec:
`TransactionService.void_transaction` calls
`TransactionRepository.void_transaction`, which is absent from
`app/db/repository.py`; the spec says `Void` finishes by "marking
status=voided". -/
def txnRepoVoid (t : Transaction) : Transaction :=
  { t with status := some .voided }

/-- Transaction Lifecycle Manager void
(`TransactionService.void_transaction`): lookup by transaction id
(`NotFound`), reversal of the posting through the Balance Engine when the
row is `processed` (credit becomes debit and vice versa), then the repo
void marker. -/
def void_transaction (txnId : Nat) (s : LedgerState) :
    LedgerState × Except Err Transaction :=
  match getTransactionByTxnId s txnId with
  | none => (s, .error .notFound)
  | some txn =>
    let reversed : LedgerState × Except Err Unit :=
      if txn.status = some .processed then
        match getAccount s txn.accountId with
        | none => (s, .ok ())
        | some acct =>
          match adjust_balance acct txn.amount (txn.category = .expense) with
          | .error e => (s, .error e)
          | .ok acct2 => (updateAccount s acct2, .ok ())
      else (s, .ok ())
    match reversed with
    | (s1, .error e) => (s1, .error e)
    | (s1, .ok _) =>
      let txn2 := txnRepoVoid txn
      (updateTransaction s1 txn2, .ok txn2)

/-- Future Transaction Scheduler trigger
(`FutureTransactionService.trigger_future_transaction`): lookup
(`NotFound`), `AlreadyProcessedError` whenever the status is not
`scheduled`, account lookup (`NotFound`), expense pre-check against
`available_balance`, repository insert of the real transaction, balance
posting, the future row advanced to `processed` with dates and the
triggering actor, and finally the real transaction advanced to
`processed`. -/
def trigger_future_transaction (txnId : Nat) (userId : Nat) (now : Nat)
    (s : LedgerState) : LedgerState × Except Err FutureTransaction :=
  match getFutureByTxnId s txnId with
  | none => (s, .error .notFound)
  | some ft =>
    if ft.status ≠ some .scheduled then
      (s, .error .alreadyProcessed)
    else
      match getAccount s ft.accountId with
      | none => (s, .error .notFound)
      | some acct =>
        if ft.category = .expense ∧ acct.availableBalance < ft.amount then
          (s, .error .insufficientBalance)
        else
          match txnRepoCreate ft.accountId ft.amount ft.category userId s with
          | .error e => (s, .error e)
          | .ok (s1, txn) =>
            match adjust_balance acct ft.amount (ft.category = .income) with
            | .error e => (s1, .error e)
            | .ok acct2 =>
              let s2 := updateAccount s1 acct2
              let ft2 := { ft with
                            status := some .processed
                            triggeredDate := some now
                            processedDate := some now
                            triggeredByUserId := some userId }
              let s3 := updateFuture s2 ft2
              let txn2 := { txn with status := some .processed, processedDate := some now }
              (updateTransaction s3 txn2, .ok ft2)

/-- Future Transaction Scheduler scrap
(`FutureTransactionService.scrap_future_transaction`): lookup (`NotFound`),
`AlreadyProcessedError` whenever the status is not `scheduled`, then the
row is marked `scrapped` with the scrapping actor and a processed date;
no account or transaction row is touched. -/
def scrap_future_transaction (txnId : Nat) (userId : Nat) (now : Nat)
    (s : LedgerState) : LedgerState × Except Err FutureTransaction :=
  match getFutureByTxnId s txnId with
  | none => (s, .error .notFound)
  | some ft =>
    if ft.status ≠ some .scheduled then
      (s, .error .alreadyProcessed)
    else
      let ft2 := { ft with
                    status := some .scrapped
                    scrappedByUserId := some userId
                    processedDate := some now }
      (updateFuture s ft2, .ok ft2)

/-- Sum taken by `BalanceService._sum_transactions`: amounts of the
account's rows in the given category whose status is `processed` (the
source query has no `is_deleted` condition). -/
def sumProcessed (s : LedgerState) (accountId : Nat) (category : TransactionCategory) : Int :=
  ((s.transactions.filter
      (fun t => decide (t.accountId = accountId ∧ t.category = category ∧
        t.status = some .processed))).map (fun t => t.amount)).sum

/-- Balance Engine reconciliation (`BalanceService.recalculate_balance`):
account lookup (`NotFound`), then processed income minus processed expense
is written back as both balance columns. -/
def recalculate_balance (accountId : Nat) (s : LedgerState) :
    LedgerState × Except Err Int :=
  match getAccount s accountId with
  | none => (s, .error .notFound)
  | some acct =>
    let newBalance := sumProcessed s accountId .income - sumProcessed s accountId .expense
    let acct2 := { acct with
                    currentBalance := newBalance
                    availableBalance := newBalance }
    (updateAccount s acct2, .ok newBalance)

/-- One row of the scan driver loop body (`process_due_future` in
`app/services/tasks.py`): insert the real transaction, fetch the account
and, when it exists, post the balance; then mark the future row
`processed` with dates.  The inserted transaction's status is never
assigned. -/
def processOneDue (fx : FutureTransaction) (now : Nat) (s : LedgerState) :
    LedgerState × Except Err Unit :=
  match txnRepoCreate fx.accountId fx.amount fx.category fx.createdByUserId s with
  | .error e => (s, .error e)
  | .ok (s1, _) =>
    let adjusted : LedgerState × Except Err Unit :=
      match getAccount s1 fx.accountId with
      | none => (s1, .ok ())
      | some acct =>
        match adjust_balance acct fx.amount (fx.category = .income) with
        | .error e => (s1, .error e)
        | .ok acct2 => (updateAccount s1 acct2, .ok ())
    match adjusted with
    | (s2, .error e) => (s2, .error e)
    | (s2, .ok _) =>
      let fx2 := { fx with
                    status := some .processed
                    triggeredDate := some now
                    processedDate := some now }
      (updateFuture s2 fx2, .ok ())

/-- The scan driver's iteration over the due rows: rows whose trigger type
is not `automatic` are skipped; an exception raised while processing one
row propagates out of the loop, so the remaining rows are not reached. -/
def processDueRows (rows : List FutureTransaction) (now : Nat) (s : LedgerState) :
    LedgerState × Except Err Unit :=
  match rows with
  | [] => (s, .ok ())
  | fx :: rest =>
    if fx.triggerType ≠ .automatic then
      processDueRows rest now s
    else
      match processOneDue fx now s with
      | (s1, .ok _) => processDueRows rest now s1
      | (s1, .error e) => (s1, .error e)

/-- The scan driver (`process_due_future`): fetches `get_due(today)` and
iterates the loop body over the rows. -/
def process_due_future (today : Int) (now : Nat) (s : LedgerState) :
    LedgerState × Except Err Unit :=
  processDueRows (get_due s today) now s

/-- Pydantic input validation on `TransactionBase`
(`app/domain/schemas.py`): `amount` carries `gt=0` and the
`validate_amount` field validator rejects any amount above
`1000000.00` (here `100000000` hundredths). -/
def validTransactionBaseAmount (amount : Int) : Bool :=
  decide (0 < amount ∧ amount ≤ 100000000)

/-- API-layer create for an immediate transaction: the request payload is a
`TransactionCreate`, so pydantic validation runs before the service sees
it; a validation failure rejects the request with no state change. -/
def apiCreateTransaction (accountId : Nat) (amount : Int)
    (category : TransactionCategory) (userId : Nat) (now : Nat)
    (s : LedgerState) : LedgerState × Except Err Transaction :=
  if validTransactionBaseAmount amount = false then
    (s, .error .invalidTransaction)
  else
    create_transaction accountId amount category userId now s

/-- Future Transaction Scheduler create
(`FutureTransactionService.create_future_transaction`): account lookup
(`NotFound`), rejection of a due date not strictly in the future, then the
repository insert. -/
def create_future_transaction (accountId : Nat) (amount : Int)
    (category : TransactionCategory) (triggerType : FutureTransactionTrigger)
    (dueDate : Int) (userId : Nat) (today : Int) (s : LedgerState) :
    LedgerState × Except Err FutureTransaction :=
  match getAccount s accountId with
  | none => (s, .error .notFound)
  | some _ =>
    if dueDate ≤ today then
      (s, .error .invalidTransaction)
    else
      let (s1, ft) := futRepoCreate accountId amount category triggerType dueDate userId s
      (s1, .ok ft)

/-- API-layer create for a future transaction: `FutureTransactionCreate`
extends `TransactionBase`, so the same amount validation (plus the
due-date validator) runs before the service sees the payload. -/
def apiCreateFutureTransaction (accountId : Nat) (amount : Int)
    (category : TransactionCategory) (triggerType : FutureTransactionTrigger)
    (dueDate : Int) (userId : Nat) (today : Int) (s : LedgerState) :
    LedgerState × Except Err FutureTransaction :=
  if validTransactionBaseAmount amount = false then
    (s, .error .invalidTransaction)
  else if dueDate ≤ today then
    (s, .error .invalidTransaction)
  else
    create_future_transaction accountId amount category triggerType dueDate userId today s

/-- The per-account balance invariant of the spec:
`available_balance <= current_balance`. -/
def AccountInv (a : Account) : Prop :=
  a.availableBalance ≤ a.currentBalance

instance (a : Account) : Decidable (AccountInv a) := by
  unfold AccountInv; infer_instance

/-- The invariant lifted to every account of the Ledger Store. -/
def StateInv (s : LedgerState) : Prop :=
  ∀ a ∈ s.accounts, AccountInv a

instance (s : LedgerState) : Decidable (StateInv s) := by
  unfold StateInv; infer_instance

/-- Well-formed id counter: every stored transaction id is below the
counter, so a freshly minted id is new. -/
def FreshTxnIds (s : LedgerState) : Prop :=
  ∀ t ∈ s.transactions, t.id < s.nextTxnId

instance (s : LedgerState) : Decidable (FreshTxnIds s) := by
  unfold FreshTxnIds; infer_instance

section FindLemmas

variable {α : Type}

/-- Key/soft-delete lookup after an ORM commit of object `a`: the commit
replaces every row whose key matches `a`, so when the lookup previously
found some row, it now finds `a` itself. -/
theorem find?_map_update (key : α → Nat) (del : α → Bool)
    (l : List α) (k : Nat) (a b : α)
    (hfind : l.find? (fun x => decide (key x = k ∧ del x = false)) = some b)
    (hka : key a = k) (hda : del a = false) :
    (l.map (fun x => if key x = key a then a else x)).find?
        (fun x => decide (key x = k ∧ del x = false)) = some a := by
  induction l with
  | nil => simp at hfind
  | cons x xs ih =>
    by_cases hx : key x = k ∧ del x = false
    · have hxa : key x = key a := by rw [hka]; exact hx.1
      simp only [List.map_cons, if_pos hxa]
      exact List.find?_cons_of_pos _ (by simp [hka, hda])
    · rw [List.find?_cons_of_neg _ (by simp [hx])] at hfind
      by_cases hxa : key x = key a
      · simp only [List.map_cons, if_pos hxa]
        exact List.find?_cons_of_pos _ (by simp [hka, hda])
      · simp only [List.map_cons, if_neg hxa]
        rw [List.find?_cons_of_neg _ (by simp [hx])]
        exact ih hfind

/-- A lookup for a freshly minted key lands on the appended row, since all
previously stored keys are below the counter. -/
theorem find?_append_fresh (key : α → Nat) (del : α → Bool)
    (l : List α) (t : α) (n : Nat)
    (hlt : ∀ u ∈ l, key u < n) (hkt : key t = n) (hdt : del t = false) :
    (l ++ [t]).find? (fun x => decide (key x = n ∧ del x = false)) = some t := by
  induction l with
  | nil =>
    rw [List.nil_append]
    exact List.find?_cons_of_pos _ (by simp [hkt, hdt])
  | cons x xs ih =>
    have hx : key x ≠ n := Nat.ne_of_lt (hlt x (by simp))
    rw [List.cons_append, List.find?_cons_of_neg _ (by simp [hx])]
    exact ih (fun u hu => hlt u (by simp [hu]))

end FindLemmas

/-- Properties carried by a successful `getAccount` lookup. -/
theorem getAccount_props {s : LedgerState} {aid : Nat} {a : Account}
    (h : getAccount s aid = some a) :
    a ∈ s.accounts ∧ a.id = aid ∧ a.isDeleted = false := by
  have hmem := List.mem_of_find?_eq_some h
  have hp := List.find?_some h
  simp only [decide_eq_true_eq] at hp
  exact ⟨hmem, hp.1, hp.2⟩

/-- Lookup after `updateAccount` of a matching, live account. -/
theorem getAccount_updateAccount {s : LedgerState} {aid : Nat} {a b : Account}
    (hfind : getAccount s aid = some b) (hka : a.id = aid) (hda : a.isDeleted = false) :
    getAccount (updateAccount s a) aid = some a :=
  find?_map_update Account.id Account.isDeleted s.accounts aid a b hfind hka hda

/-- Properties carried by a successful `getFutureByTxnId` lookup. -/
theorem getFuture_props {s : LedgerState} {fid : Nat} {f : FutureTransaction}
    (h : getFutureByTxnId s fid = some f) :
    f ∈ s.futures ∧ f.id = fid ∧ f.isDeleted = false := by
  have hmem := List.mem_of_find?_eq_some h
  have hp := List.find?_some h
  simp only [decide_eq_true_eq] at hp
  exact ⟨hmem, hp.1, hp.2⟩

/-- Lookup after `updateFuture` of a matching, live row. -/
theorem getFuture_updateFuture {s : LedgerState} {fid : Nat} {a b : FutureTransaction}
    (hfind : getFutureByTxnId s fid = some b) (hka : a.id = fid) (hda : a.isDeleted = false) :
    getFutureByTxnId (updateFuture s a) fid = some a :=
  find?_map_update FutureTransaction.id FutureTransaction.isDeleted s.futures fid a b hfind hka hda

/-- Lookup after `updateTransaction` of a matching, live row. -/
theorem getTransaction_updateTransaction {s : LedgerState} {tid : Nat} {a b : Transaction}
    (hfind : getTransactionByTxnId s tid = some b) (hka : a.id = tid) (hda : a.isDeleted = false) :
    getTransactionByTxnId (updateTransaction s a) tid = some a :=
  find?_map_update Transaction.id Transaction.isDeleted s.transactions tid a b hfind hka hda

/-- Shape of a successful repository insert. -/
theorem txnRepoCreate_ok {aid u : Nat} {amt : Int} {cat : TransactionCategory}
    {s s1 : LedgerState} {t : Transaction}
    (h : txnRepoCreate aid amt cat u s = .ok (s1, t)) :
    s1.accounts = s.accounts ∧ s1.futures = s.futures ∧
      s1.transactions = s.transactions ++ [t] ∧ s1.nextTxnId = s.nextTxnId + 1 ∧
      t = ⟨s.nextTxnId, aid, amt, cat, none, none, u, false⟩ ∧ 0 < amt := by
  unfold txnRepoCreate at h
  split at h
  · exact absurd h (by simp)
  · injection h with h'
    injection h' with h1 h2
    subst h1; subst h2
    refine ⟨rfl, rfl, rfl, rfl, rfl, by omega⟩

/-- Concrete account used to exercise the Balance Engine: current balance
10.00, available balance 5.00. -/
def acctHold : Account :=
  { id := 3, currentBalance := 1000, availableBalance := 500, isActive := true, isDeleted := false }

/-- Concrete healthy account: 1000.00 in both balance columns. -/
def acctMain : Account :=
  { id := 1, currentBalance := 100000, availableBalance := 100000, isActive := true, isDeleted := false }

/-- C3, counterexample.  `adjust_balance` in debit mode compares the amount
with `current_balance`, not `available_balance`: on an account holding
current 10.00 / available 5.00, a debit of 7.00 succeeds (driving
available negative) although `available_balance < amount`, where the claim
demands an `InsufficientFunds` failure. -/
theorem adjust_balance_available_cex :
    acctHold.availableBalance < 700 ∧
      adjust_balance acctHold 700 false =
        .ok { id := 3, currentBalance := 300, availableBalance := -200,
              isActive := true, isDeleted := false } := by
  decide

/-- C3 (amended).  For every account and every amount > 0, `adjust_balance`
in debit mode fails with `InsufficientFunds` if and only if
`current_balance < amount`, and otherwise decrements both balance columns
by the amount; credit mode increments both; a failure returns before any
mutation. -/
theorem adjust_balance_spec (a : Account) (amount : Int) (_hpos : 0 < amount) :
    (adjust_balance a amount false = .error .insufficientBalance ↔
        a.currentBalance < amount)
    ∧ (amount ≤ a.currentBalance →
        adjust_balance a amount false =
          .ok { a with currentBalance := a.currentBalance - amount,
                       availableBalance := a.availableBalance - amount })
    ∧ adjust_balance a amount true =
        .ok { a with currentBalance := a.currentBalance + amount,
                     availableBalance := a.availableBalance + amount } := by
  refine ⟨?_, ?_, ?_⟩
  · by_cases hlt : a.currentBalance < amount
    · simp [adjust_balance, hlt]
    · simp [adjust_balance, hlt, sub_eq_add_neg]
  · intro hle
    have hlt : ¬ a.currentBalance < amount := not_lt.mpr hle
    simp [adjust_balance, hlt, sub_eq_add_neg]
  · simp [adjust_balance]

/-- C3, witness: the amended statement evaluated on the concrete account
`acctHold` with amount 5.00. -/
theorem adjust_balance_spec_witness :
    (adjust_balance acctHold 500 false = .error .insufficientBalance ↔
        acctHold.currentBalance < 500)
    ∧ (500 ≤ acctHold.currentBalance →
        adjust_balance acctHold 500 false =
          .ok { acctHold with currentBalance := acctHold.currentBalance - 500,
                              availableBalance := acctHold.availableBalance - 500 })
    ∧ adjust_balance acctHold 500 true =
        .ok { acctHold with currentBalance := acctHold.currentBalance + 500,
                            availableBalance := acctHold.availableBalance + 500 } :=
  adjust_balance_spec acctHold 500 (by decide)

/-- Scheduled, manually triggered future transaction due on day 5. -/
def ftManualDue : FutureTransaction :=
  { id := 10, accountId := 1, amount := 2500, category := .income,
    status := some .scheduled, triggerType := .manual, dueDate := 5,
    triggeredDate := none, processedDate := none, createdByUserId := 7,
    triggeredByUserId := none, scrappedByUserId := none, isDeleted := false }

/-- Ledger holding only `ftManualDue`. -/
def stManualDue : LedgerState :=
  { accounts := [acctMain], transactions := [], futures := [ftManualDue], nextTxnId := 20 }

/-- C6, counterexample.  `get_due` has no condition on `trigger_type`: a
scheduled row with `trigger_type = manual` due on the target date is
returned, where the claim says only automatic rows are. -/
theorem get_due_manual_cex :
    ftManualDue.triggerType = .manual ∧ get_due stManualDue 5 = [ftManualDue] := by
  decide

/-- C6 (amended).  `get_due targetDate` returns exactly the non-deleted
rows whose status is `scheduled` and whose due date equals the target,
regardless of trigger type; being a pure query it modifies no stored
state. -/
theorem get_due_characterization (s : LedgerState) (d : Int) (f : FutureTransaction) :
    f ∈ get_due s d ↔
      f ∈ s.futures ∧ f.dueDate = d ∧ f.status = some .scheduled ∧
        f.isDeleted = false := by
  simp [get_due, List.mem_filter, and_assoc]

/-- C10.  Pydantic validation rejects any creation payload whose amount
exceeds 1000000.00 before the service layer runs: both API-level creates
return `InvalidTransaction` and leave the state untouched. -/
theorem amount_limit_rejected (accountId userId now : Nat)
    (amount dueDate today : Int) (category : TransactionCategory)
    (triggerType : FutureTransactionTrigger) (s : LedgerState)
    (h : 100000000 < amount) :
    apiCreateTransaction accountId amount category userId now s =
        (s, .error .invalidTransaction)
    ∧ apiCreateFutureTransaction accountId amount category triggerType
        dueDate userId today s = (s, .error .invalidTransaction) := by
  have hv : validTransactionBaseAmount amount = false := by
    simp only [validTransactionBaseAmount, decide_eq_false_iff_not]
    omega
  constructor
  · simp [apiCreateTransaction, hv]
  · simp [apiCreateFutureTransaction, hv]

/-- C10, witness: a payload of 1000000.01 is rejected by both creates on a
concrete ledger. -/
theorem amount_limit_rejected_witness :
    apiCreateTransaction 1 100000001 .income 7 3 stManualDue =
        (stManualDue, .error .invalidTransaction)
    ∧ apiCreateFutureTransaction 1 100000001 .income .automatic 9 7 4 stManualDue =
        (stManualDue, .error .invalidTransaction) :=
  amount_limit_rejected 1 7 3 100000001 9 4 .income .automatic stManualDue (by decide)

/-- C8.  Scrap succeeds exactly from `scheduled`: it then marks the row
`scrapped`, stamping `scrapped_by` and `processed_date`, and leaves the
accounts table (hence every balance) and the transactions table untouched;
from any other status it fails with the already-processed error and
changes nothing. -/
theorem scrap_rules (s : LedgerState) (fid u now : Nat) (ft : FutureTransaction)
    (hfind : getFutureByTxnId s fid = some ft) :
    (ft.status = some .scheduled →
      scrap_future_transaction fid u now s =
        (updateFuture s { ft with status := some .scrapped,
                                  scrappedByUserId := some u,
                                  processedDate := some now },
         .ok { ft with status := some .scrapped, scrappedByUserId := some u,
                       processedDate := some now })
      ∧ (scrap_future_transaction fid u now s).1.accounts = s.accounts
      ∧ (scrap_future_transaction fid u now s).1.transactions = s.transactions)
    ∧ (ft.status ≠ some .scheduled →
      scrap_future_transaction fid u now s = (s, .error .alreadyProcessed)) := by
  refine ⟨fun hs => ?_, fun hs => ?_⟩
  · have h1 : scrap_future_transaction fid u now s =
        (updateFuture s { ft with status := some .scrapped,
                                  scrappedByUserId := some u,
                                  processedDate := some now },
         .ok { ft with status := some .scrapped, scrappedByUserId := some u,
                       processedDate := some now }) := by
      simp [scrap_future_transaction, hfind, hs]
    refine ⟨h1, ?_, ?_⟩
    · rw [h1]; rfl
    · rw [h1]; rfl
  · simp [scrap_future_transaction, hfind, hs]

/-- C8, witness: scrapping the concrete scheduled row `ftManualDue`. -/
theorem scrap_rules_witness :
    scrap_future_transaction 10 7 99 stManualDue =
      (updateFuture stManualDue
         { ftManualDue with status := some .scrapped, scrappedByUserId := some 7,
                            processedDate := some 99 },
       .ok { ftManualDue with status := some .scrapped, scrappedByUserId := some 7,
                              processedDate := some 99 }) :=
  ((scrap_rules stManualDue 10 7 99 ftManualDue (by decide)).1 (by decide)).1

/-- C9.  For an existing account, `recalculate_balance` returns processed
income minus processed expense of that account and writes that value back
as both `current_balance` and `available_balance`. -/
theorem recalculate_balance_spec (s : LedgerState) (aid : Nat) (a : Account)
    (hfind : getAccount s aid = some a) :
    (recalculate_balance aid s).2 =
        .ok (sumProcessed s aid .income - sumProcessed s aid .expense)
    ∧ getAccount (recalculate_balance aid s).1 aid =
        some { a with
                currentBalance :=
                  sumProcessed s aid .income - sumProcessed s aid .expense,
                availableBalance :=
                  sumProcessed s aid .income - sumProcessed s aid .expense } := by
  have hprops := getAccount_props hfind
  constructor
  · simp [recalculate_balance, hfind]
  · simp only [recalculate_balance, hfind]
    exact getAccount_updateAccount hfind hprops.2.1 hprops.2.2

/-- Processed income entry of 300.00 on the main account. -/
def txnInc : Transaction :=
  { id := 40, accountId := 1, amount := 30000, category := .income,
    status := some .processed, processedDate := some 1, createdByUserId := 7,
    isDeleted := false }

/-- Processed expense entry of 125.00 on the main account. -/
def txnExp : Transaction :=
  { id := 41, accountId := 1, amount := 12500, category := .expense,
    status := some .processed, processedDate := some 2, createdByUserId := 7,
    isDeleted := false }

/-- Entry never advanced out of its unset status: not counted by the sums. -/
def txnNoStatus : Transaction :=
  { id := 42, accountId := 1, amount := 9999, category := .income,
    status := none, processedDate := none, createdByUserId := 7,
    isDeleted := false }

/-- Ledger for exercising reconciliation. -/
def stRecalc : LedgerState :=
  { accounts := [acctMain], transactions := [txnInc, txnExp, txnNoStatus],
    futures := [], nextTxnId := 50 }

/-- C9, witness: reconciliation on the concrete ledger `stRecalc`. -/
theorem recalculate_balance_spec_witness :
    (recalculate_balance 1 stRecalc).2 =
        .ok (sumProcessed stRecalc 1 .income - sumProcessed stRecalc 1 .expense)
    ∧ getAccount (recalculate_balance 1 stRecalc).1 1 =
        some { acctMain with
                currentBalance :=
                  sumProcessed stRecalc 1 .income - sumProcessed stRecalc 1 .expense,
                availableBalance :=
                  sumProcessed stRecalc 1 .income - sumProcessed stRecalc 1 .expense } :=
  recalculate_balance_spec stRecalc 1 acctMain (by decide)

/-- Futures are untouched by a transaction-table commit. -/
theorem getFuture_updateTransaction (s : LedgerState) (t : Transaction) (fid : Nat) :
    getFutureByTxnId (updateTransaction s t) fid = getFutureByTxnId s fid := rfl

/-- Futures are untouched by an account-table commit. -/
theorem getFuture_updateAccount (s : LedgerState) (a : Account) (fid : Nat) :
    getFutureByTxnId (updateAccount s a) fid = getFutureByTxnId s fid := rfl

/-- Accounts are untouched by a transaction-table commit. -/
theorem getAccount_updateTransaction (s : LedgerState) (t : Transaction) (aid : Nat) :
    getAccount (updateTransaction s t) aid = getAccount s aid := rfl

/-- Accounts are untouched by a future-table commit. -/
theorem getAccount_updateFuture (s : LedgerState) (f : FutureTransaction) (aid : Nat) :
    getAccount (updateFuture s f) aid = getAccount s aid := rfl

/-- The future lookup only reads the futures table. -/
theorem getFuture_congr {s1 s2 : LedgerState} (h : s1.futures = s2.futures) (fid : Nat) :
    getFutureByTxnId s1 fid = getFutureByTxnId s2 fid := by
  unfold getFutureByTxnId; rw [h]

/-- The account lookup only reads the accounts table. -/
theorem getAccount_congr {s1 s2 : LedgerState} (h : s1.accounts = s2.accounts) (aid : Nat) :
    getAccount s1 aid = getAccount s2 aid := by
  unfold getAccount; rw [h]

/-- After a successful trigger, the same future id resolves to the
returned row, which is terminal (`processed`) and live. -/
theorem trigger_ok_processed {fid u now : Nat} {s s1 : LedgerState}
    {r : FutureTransaction}
    (h : trigger_future_transaction fid u now s = (s1, .ok r)) :
    getFutureByTxnId s1 fid = some r ∧ r.status = some .processed := by
  unfold trigger_future_transaction at h
  cases hfind : getFutureByTxnId s fid with
  | none => rw [hfind] at h; exact absurd h (by simp)
  | some ft =>
    rw [hfind] at h
    dsimp only at h
    by_cases hs : ft.status ≠ some .scheduled
    · rw [if_pos hs] at h; exact absurd h (by simp)
    · rw [if_neg hs] at h
      cases hacct : getAccount s ft.accountId with
      | none => rw [hacct] at h; exact absurd h (by simp)
      | some acct =>
        rw [hacct] at h
        dsimp only at h
        by_cases hexp : ft.category = .expense ∧ acct.availableBalance < ft.amount
        · rw [if_pos hexp] at h; exact absurd h (by simp)
        · rw [if_neg hexp] at h
          cases htc : txnRepoCreate ft.accountId ft.amount ft.category u s with
          | error e => rw [htc] at h; exact absurd h (by simp)
          | ok p =>
            obtain ⟨sa, txn⟩ := p
            rw [htc] at h
            dsimp only at h
            cases hadj : adjust_balance acct ft.amount (ft.category = .income) with
            | error e => rw [hadj] at h; exact absurd h (by simp)
            | ok acct2 =>
              rw [hadj] at h
              dsimp only at h
              injection h with h1 h2
              injection h2 with h2
              subst h1; subst h2
              have hprops := getFuture_props hfind
              have hrepo := txnRepoCreate_ok htc
              have hstep : getFutureByTxnId (updateAccount sa acct2) fid = some ft := by
                rw [getFuture_updateAccount, getFuture_congr hrepo.2.1, hfind]
              refine ⟨?_, rfl⟩
              rw [getFuture_updateTransaction]
              exact getFuture_updateFuture hstep hprops.2.1 hprops.2.2

/-- Future transaction already in its terminal `processed` state. -/
def ftDone : FutureTransaction :=
  { id := 11, accountId := 1, amount := 2500, category := .income,
    status := some .processed, triggerType := .manual, dueDate := 5,
    triggeredDate := some 1, processedDate := some 1, createdByUserId := 7,
    triggeredByUserId := some 7, scrappedByUserId := none, isDeleted := false }

/-- Ledger holding the already-processed row `ftDone`. -/
def stDone : LedgerState :=
  { accounts := [acctMain], transactions := [], futures := [ftDone], nextTxnId := 20 }

/-- C1, counterexample.  Re-invoking Trigger on an already-processed row is
not a no-op returning the existing result: the service raises
`AlreadyProcessedError`. -/
theorem trigger_repeat_error_cex :
    trigger_future_transaction 11 7 9 stDone = (stDone, .error .alreadyProcessed) := by
  decide

/-- C1 (amended).  Re-invoking Trigger on an already-triggered/processed id
raises the already-processed error and changes no state, rather than
returning the existing result; consequently `Trigger(ft); Trigger(ft)`
posts money exactly once — the second call leaves the state produced by
the first call untouched — but the two calls do not return the same
result: the first returns the processed row, the second an error. -/
theorem trigger_no_duplicate_posting :
    (∀ (s : LedgerState) (fid u now : Nat) (ft : FutureTransaction),
        getFutureByTxnId s fid = some ft →
        (ft.status = some .triggered ∨ ft.status = some .processed) →
        trigger_future_transaction fid u now s = (s, .error .alreadyProcessed))
    ∧ (∀ (s s1 : LedgerState) (fid u now u2 now2 : Nat) (r : FutureTransaction),
        trigger_future_transaction fid u now s = (s1, .ok r) →
        trigger_future_transaction fid u2 now2 s1 = (s1, .error .alreadyProcessed)) := by
  constructor
  · intro s fid u now ft hfind hst
    have hne : ft.status ≠ some .scheduled := by
      rcases hst with h | h <;> simp [h]
    simp [trigger_future_transaction, hfind, hne]
  · intro s s1 fid u now u2 now2 r h
    obtain ⟨hfind, hst⟩ := trigger_ok_processed h
    have hne : r.status ≠ some .scheduled := by simp [hst]
    simp [trigger_future_transaction, hfind, hne]

/-- C1, witness: the first conjunct applied to the concrete processed row
`ftDone`. -/
theorem trigger_no_duplicate_posting_witness :
    trigger_future_transaction 11 8 55 stDone = (stDone, .error .alreadyProcessed) :=
  trigger_no_duplicate_posting.1 stDone 11 8 55 ftDone (by decide) (Or.inr (by decide))

/-- Inactive account with 500.00 in both balance columns. -/
def acctInactive : Account :=
  { id := 5, currentBalance := 50000, availableBalance := 50000,
    isActive := false, isDeleted := false }

/-- Ledger holding only the inactive account. -/
def stInactive : LedgerState :=
  { accounts := [acctInactive], transactions := [], futures := [], nextTxnId := 70 }

/-- C7, counterexample.  Create on an existing but inactive account does
not fail: the service never consults `is_active`, so the transaction is
persisted as processed and the balance is adjusted. -/
theorem create_inactive_cex :
    acctInactive.isActive = false ∧
      create_transaction 5 1000 .income 7 2 stInactive =
        ({ accounts := [{ id := 5, currentBalance := 51000, availableBalance := 51000,
                          isActive := false, isDeleted := false }],
           transactions := [{ id := 70, accountId := 5, amount := 1000,
                              category := .income, status := some .processed,
                              processedDate := some 2, createdByUserId := 7,
                              isDeleted := false }],
           futures := [], nextTxnId := 71 },
         .ok { id := 70, accountId := 5, amount := 1000, category := .income,
               status := some .processed, processedDate := some 2,
               createdByUserId := 7, isDeleted := false }) := by
  decide

/-- C7 (amended).  Create validates only that the target account exists
(and is not soft-deleted): an unknown id fails with `NotFound`, while an
existing but inactive account is accepted — an income create on it
persists a processed transaction and adjusts both balances. -/
theorem create_validates_existence_only :
    (∀ (aid u now : Nat) (amt : Int) (cat : TransactionCategory) (s : LedgerState),
        getAccount s aid = none →
        create_transaction aid amt cat u now s = (s, .error .notFound))
    ∧ (∀ (aid u now : Nat) (amt : Int) (s : LedgerState) (a : Account),
        getAccount s aid = some a → a.isActive = false → 0 < amt →
        ∃ s1 txn,
          create_transaction aid amt .income u now s = (s1, .ok txn) ∧
          txn.status = some .processed ∧ txn ∈ s1.transactions ∧
          getAccount s1 aid =
            some { a with currentBalance := a.currentBalance + amt,
                          availableBalance := a.availableBalance + amt }) := by
  constructor
  · intro aid u now amt cat s hnone
    simp [create_transaction, hnone]
  · intro aid u now amt s a hfind _hina hpos
    have hle : ¬ amt ≤ 0 := by omega
    have hc : create_transaction aid amt .income u now s =
        (updateTransaction
           (updateAccount
              { s with
                  transactions := s.transactions ++
                    [{ id := s.nextTxnId, accountId := aid, amount := amt,
                       category := .income, status := none, processedDate := none,
                       createdByUserId := u, isDeleted := false }],
                  nextTxnId := s.nextTxnId + 1 }
              { a with currentBalance := a.currentBalance + amt,
                       availableBalance := a.availableBalance + amt })
           { id := s.nextTxnId, accountId := aid, amount := amt,
             category := .income, status := some .processed,
             processedDate := some now, createdByUserId := u, isDeleted := false },
         .ok { id := s.nextTxnId, accountId := aid, amount := amt,
               category := .income, status := some .processed,
               processedDate := some now, createdByUserId := u,
               isDeleted := false }) := by
      simp [create_transaction, hfind, txnRepoCreate, hle, adjust_balance]
    refine ⟨_, _, hc, rfl, ?_, ?_⟩
    · show _ ∈ (updateTransaction _ _).transactions
      refine List.mem_map.mpr ?_
      refine ⟨{ id := s.nextTxnId, accountId := aid, amount := amt,
                category := .income, status := none, processedDate := none,
                createdByUserId := u, isDeleted := false },
              List.mem_append_right _ (by simp), by simp⟩
    · have hprops := getAccount_props hfind
      have h0 : getAccount
          { s with
              transactions := s.transactions ++
                [{ id := s.nextTxnId, accountId := aid, amount := amt,
                   category := .income, status := none, processedDate := none,
                   createdByUserId := u, isDeleted := false }],
              nextTxnId := s.nextTxnId + 1 } aid = some a := hfind
      rw [getAccount_updateTransaction]
      exact getAccount_updateAccount h0 hprops.2.1 hprops.2.2

/-- C7, witness: the second conjunct applied to the concrete inactive
account. -/
theorem create_validates_existence_only_witness :
    ∃ s1 txn,
      create_transaction 5 1000 .income 7 2 stInactive = (s1, .ok txn) ∧
      txn.status = some .processed ∧ txn ∈ s1.transactions ∧
      getAccount s1 5 =
        some { acctInactive with
                currentBalance := acctInactive.currentBalance + 1000,
                availableBalance := acctInactive.availableBalance + 1000 } :=
  create_validates_existence_only.2 5 7 2 1000 stInactive acctInactive
    (by decide) (by decide) (by decide)

/-- Evaluation of an income create against a found account: the appended
row, the credited balances, and the processed result. -/
theorem create_income_eval (s : LedgerState) (aid u now : Nat) (amt : Int)
    (a : Account) (hfind : getAccount s aid = some a) (hpos : 0 < amt) :
    create_transaction aid amt .income u now s =
      (updateTransaction
         (updateAccount
            { s with
                transactions := s.transactions ++
                  [{ id := s.nextTxnId, accountId := aid, amount := amt,
                     category := .income, status := none, processedDate := none,
                     createdByUserId := u, isDeleted := false }],
                nextTxnId := s.nextTxnId + 1 }
            { a with currentBalance := a.currentBalance + amt,
                     availableBalance := a.availableBalance + amt })
         { id := s.nextTxnId, accountId := aid, amount := amt,
           category := .income, status := some .processed,
           processedDate := some now, createdByUserId := u, isDeleted := false },
       .ok { id := s.nextTxnId, accountId := aid, amount := amt,
             category := .income, status := some .processed,
             processedDate := some now, createdByUserId := u,
             isDeleted := false }) := by
  have hle : ¬ amt ≤ 0 := by omega
  simp [create_transaction, hfind, txnRepoCreate, hle, adjust_balance]

/-- Evaluation of Void against a processed income transaction whose
reversal debit passes the `current_balance` check. -/
theorem void_processed_eval (s : LedgerState) (t : Transaction) (a : Account)
    (ht : getTransactionByTxnId s t.id = some t)
    (hst : t.status = some .processed)
    (hacct : getAccount s t.accountId = some a)
    (hnl : ¬ (a.currentBalance < t.amount))
    (hcat : t.category = .income) :
    void_transaction t.id s =
      (updateTransaction
         (updateAccount s
            { a with currentBalance := a.currentBalance + -t.amount,
                     availableBalance := a.availableBalance + -t.amount })
         { t with status := some .voided },
       .ok { t with status := some .voided }) := by
  simp [void_transaction, ht, hst, hacct, txnRepoVoid, adjust_balance, hcat, hnl]

/-- Account that already sits at a negative balance. -/
def acctNeg : Account :=
  { id := 4, currentBalance := -100, availableBalance := -100,
    isActive := true, isDeleted := false }

/-- Ledger holding only the negative account. -/
def stNeg : LedgerState :=
  { accounts := [acctNeg], transactions := [], futures := [], nextTxnId := 60 }

/-- C5, counterexample.  On an account with a negative starting balance,
`Create(acct, 1.00, income)` succeeds but the subsequent `Void` fails with
`InsufficientFunds` (the reversal debit checks `current_balance`, which is
0.00 after the credit), so the balances do not return to their pre-create
values and the transaction is never voided. -/
theorem create_then_void_cex :
    create_transaction 4 100 .income 7 1 stNeg =
      ({ accounts := [{ id := 4, currentBalance := 0, availableBalance := 0,
                        isActive := true, isDeleted := false }],
         transactions := [{ id := 60, accountId := 4, amount := 100,
                            category := .income, status := some .processed,
                            processedDate := some 1, createdByUserId := 7,
                            isDeleted := false }],
         futures := [], nextTxnId := 61 },
       .ok { id := 60, accountId := 4, amount := 100, category := .income,
             status := some .processed, processedDate := some 1,
             createdByUserId := 7, isDeleted := false })
    ∧ void_transaction 60
        { accounts := [{ id := 4, currentBalance := 0, availableBalance := 0,
                         isActive := true, isDeleted := false }],
          transactions := [{ id := 60, accountId := 4, amount := 100,
                             category := .income, status := some .processed,
                             processedDate := some 1, createdByUserId := 7,
                             isDeleted := false }],
          futures := [], nextTxnId := 61 } =
      ({ accounts := [{ id := 4, currentBalance := 0, availableBalance := 0,
                        isActive := true, isDeleted := false }],
         transactions := [{ id := 60, accountId := 4, amount := 100,
                            category := .income, status := some .processed,
                            processedDate := some 1, createdByUserId := 7,
                            isDeleted := false }],
         futures := [], nextTxnId := 61 }, .error .insufficientBalance) := by
  constructor
  · decide
  · decide

/-- C5 (amended).  For every account whose current balance is non-negative
and every positive amount, Create of an income transaction followed by
Void of that transaction restores the account exactly (both balance
columns return to their pre-create values) and leaves the transaction
voided. -/
theorem create_then_void_cancels (s : LedgerState) (aid u now : Nat)
    (amt : Int) (a : Account)
    (hfresh : FreshTxnIds s)
    (hfind : getAccount s aid = some a)
    (hcur : 0 ≤ a.currentBalance)
    (hpos : 0 < amt) :
    ∃ s1 txn s2 txn2,
      create_transaction aid amt .income u now s = (s1, .ok txn) ∧
      void_transaction txn.id s1 = (s2, .ok txn2) ∧
      txn2.status = some .voided ∧
      getAccount s2 aid = some a := by
  have hprops := getAccount_props hfind
  have hc := create_income_eval s aid u now amt a hfind hpos
  have h1 : getTransactionByTxnId
      (updateTransaction
         (updateAccount
            { s with
                transactions := s.transactions ++
                  [{ id := s.nextTxnId, accountId := aid, amount := amt,
                     category := .income, status := none, processedDate := none,
                     createdByUserId := u, isDeleted := false }],
                nextTxnId := s.nextTxnId + 1 }
            { a with currentBalance := a.currentBalance + amt,
                     availableBalance := a.availableBalance + amt })
         { id := s.nextTxnId, accountId := aid, amount := amt,
           category := .income, status := some .processed,
           processedDate := some now, createdByUserId := u, isDeleted := false })
      s.nextTxnId =
      some { id := s.nextTxnId, accountId := aid, amount := amt,
             category := .income, status := some .processed,
             processedDate := some now, createdByUserId := u,
             isDeleted := false } :=
    find?_map_update Transaction.id Transaction.isDeleted
      (s.transactions ++
        [({ id := s.nextTxnId, accountId := aid, amount := amt,
            category := .income, status := none, processedDate := none,
            createdByUserId := u, isDeleted := false } : Transaction)])
      s.nextTxnId
      ({ id := s.nextTxnId, accountId := aid, amount := amt,
         category := .income, status := some .processed,
         processedDate := some now, createdByUserId := u,
         isDeleted := false } : Transaction)
      ({ id := s.nextTxnId, accountId := aid, amount := amt,
         category := .income, status := none, processedDate := none,
         createdByUserId := u, isDeleted := false } : Transaction)
      (find?_append_fresh Transaction.id Transaction.isDeleted s.transactions
        ({ id := s.nextTxnId, accountId := aid, amount := amt,
           category := .income, status := none, processedDate := none,
           createdByUserId := u, isDeleted := false } : Transaction)
        s.nextTxnId hfresh rfl rfl)
      rfl rfl
  have h2 : getAccount
      (updateTransaction
         (updateAccount
            { s with
                transactions := s.transactions ++
                  [{ id := s.nextTxnId, accountId := aid, amount := amt,
                     category := .income, status := none, processedDate := none,
                     createdByUserId := u, isDeleted := false }],
                nextTxnId := s.nextTxnId + 1 }
            { a with currentBalance := a.currentBalance + amt,
                     availableBalance := a.availableBalance + amt })
         { id := s.nextTxnId, accountId := aid, amount := amt,
           category := .income, status := some .processed,
           processedDate := some now, createdByUserId := u, isDeleted := false })
      aid =
      some { a with currentBalance := a.currentBalance + amt,
                    availableBalance := a.availableBalance + amt } := by
    rw [getAccount_updateTransaction]
    exact getAccount_updateAccount hfind hprops.2.1 hprops.2.2
  have hnl : ¬ (a.currentBalance + amt < amt) := by omega
  have hv := void_processed_eval _
      ({ id := s.nextTxnId, accountId := aid, amount := amt,
         category := .income, status := some .processed,
         processedDate := some now, createdByUserId := u,
         isDeleted := false } : Transaction) _ h1 rfl h2 hnl rfl
  refine ⟨_, _, _, _, hc, hv, rfl, ?_⟩
  have h4 := @getAccount_updateAccount _ _
      ({ a with currentBalance := a.currentBalance + amt + -amt,
                availableBalance := a.availableBalance + amt + -amt }) _
      h2 hprops.2.1 hprops.2.2
  have hrec : ({ a with
      currentBalance := a.currentBalance + amt + -amt,
      availableBalance := a.availableBalance + amt + -amt } : Account) = a := by
    cases a
    simp
  rw [getAccount_updateTransaction]
  exact h4.trans (congrArg some hrec)

/-- C5, witness: create-then-void on the concrete healthy account. -/
theorem create_then_void_cancels_witness :
    ∃ s1 txn s2 txn2,
      create_transaction 1 500 .income 7 3 stManualDue = (s1, .ok txn) ∧
      void_transaction txn.id s1 = (s2, .ok txn2) ∧
      txn2.status = some .voided ∧
      getAccount s2 1 = some acctMain :=
  create_then_void_cancels stManualDue 1 7 3 500 acctMain
    (by decide) (by decide) (by decide) (by decide)

/-- A successful balance adjustment preserves the per-account invariant:
the same signed delta is added to both columns. -/
theorem accountInv_adjust {a a2 : Account} {amt : Int} {c : Bool}
    (ha : AccountInv a) (h : adjust_balance a amt c = .ok a2) : AccountInv a2 := by
  unfold adjust_balance at h
  split at h
  · exact absurd h (by simp)
  · injection h with h'
    subst h'
    unfold AccountInv at ha ⊢
    dsimp only
    split <;> omega

/-- Committing an invariant-respecting account keeps the state invariant. -/
theorem stateInv_updateAccount {s : LedgerState} {a : Account}
    (hs : StateInv s) (ha : AccountInv a) : StateInv (updateAccount s a) := by
  intro b hb
  simp only [updateAccount, List.mem_map] at hb
  obtain ⟨c, hc, hcb⟩ := hb
  by_cases h : c.id = a.id
  · rw [if_pos h] at hcb; subst hcb; exact ha
  · rw [if_neg h] at hcb; subst hcb; exact hs c hc

/-- The state invariant only depends on the accounts table. -/
theorem stateInv_congr {s1 s2 : LedgerState}
    (h : s1.accounts = s2.accounts) (hs : StateInv s2) : StateInv s1 := by
  intro a ha
  exact hs a (h ▸ ha)

/-- Create preserves the balance invariant in every branch. -/
theorem stateInv_create (aid u now : Nat) (amt : Int) (cat : TransactionCategory)
    (s : LedgerState) (hs : StateInv s) :
    StateInv (create_transaction aid amt cat u now s).1 := by
  unfold create_transaction
  cases hfind : getAccount s aid with
  | none => exact hs
  | some acct =>
    dsimp only
    by_cases hexp : cat = .expense ∧ acct.availableBalance < amt
    · rw [if_pos hexp]; exact hs
    · rw [if_neg hexp]
      cases htc : txnRepoCreate aid amt cat u s with
      | error e => exact hs
      | ok p =>
        obtain ⟨s1, txn⟩ := p
        dsimp only
        cases hadj : adjust_balance acct amt (cat = .income) with
        | error e =>
          exact stateInv_congr (txnRepoCreate_ok htc).1 hs
        | ok acct2 =>
          dsimp only
          have h2 : AccountInv acct2 :=
            accountInv_adjust (hs acct (getAccount_props hfind).1) hadj
          have h3 : StateInv s1 := stateInv_congr (txnRepoCreate_ok htc).1 hs
          exact stateInv_congr rfl (stateInv_updateAccount h3 h2)

/-- Void preserves the balance invariant in every branch. -/
theorem stateInv_void (tid : Nat) (s : LedgerState) (hs : StateInv s) :
    StateInv (void_transaction tid s).1 := by
  unfold void_transaction
  cases hT : getTransactionByTxnId s tid with
  | none => exact hs
  | some txn =>
    dsimp only
    by_cases hst : txn.status = some .processed
    · rw [if_pos hst]
      cases hacct : getAccount s txn.accountId with
      | none => exact stateInv_congr rfl hs
      | some acct =>
        dsimp only
        cases hadj : adjust_balance acct txn.amount (txn.category = .expense) with
        | error e => exact hs
        | ok acct2 =>
          dsimp only
          have h2 : AccountInv acct2 :=
            accountInv_adjust (hs acct (getAccount_props hacct).1) hadj
          exact stateInv_congr rfl (stateInv_updateAccount hs h2)
    · rw [if_neg hst]
      exact stateInv_congr rfl hs

/-- Trigger preserves the balance invariant in every branch. -/
theorem stateInv_trigger (fid u now : Nat) (s : LedgerState) (hs : StateInv s) :
    StateInv (trigger_future_transaction fid u now s).1 := by
  unfold trigger_future_transaction
  cases hfind : getFutureByTxnId s fid with
  | none => exact hs
  | some ft =>
    dsimp only
    by_cases hns : ft.status ≠ some .scheduled
    · rw [if_pos hns]; exact hs
    · rw [if_neg hns]
      cases hacct : getAccount s ft.accountId with
      | none => exact hs
      | some acct =>
        dsimp only
        by_cases hexp : ft.category = .expense ∧ acct.availableBalance < ft.amount
        · rw [if_pos hexp]; exact hs
        · rw [if_neg hexp]
          cases htc : txnRepoCreate ft.accountId ft.amount ft.category u s with
          | error e => exact hs
          | ok p =>
            obtain ⟨s1, txn⟩ := p
            dsimp only
            cases hadj : adjust_balance acct ft.amount (ft.category = .income) with
            | error e =>
              exact stateInv_congr (txnRepoCreate_ok htc).1 hs
            | ok acct2 =>
              dsimp only
              have h2 : AccountInv acct2 :=
                accountInv_adjust (hs acct (getAccount_props hacct).1) hadj
              have h3 : StateInv s1 := stateInv_congr (txnRepoCreate_ok htc).1 hs
              exact stateInv_congr rfl (stateInv_updateAccount h3 h2)

/-- Reconciliation preserves the balance invariant: it writes the same
value to both columns. -/
theorem stateInv_recalculate (aid : Nat) (s : LedgerState) (hs : StateInv s) :
    StateInv (recalculate_balance aid s).1 := by
  unfold recalculate_balance
  cases hfind : getAccount s aid with
  | none => exact hs
  | some acct =>
    dsimp only
    refine stateInv_updateAccount hs ?_
    unfold AccountInv
    dsimp only
    exact le_refl _

/-- C4.  Every engine operation — balance adjustment, transaction create
and void, future-transaction trigger, and balance recalculation —
preserves the invariant `available_balance <= current_balance` on every
account of the resulting state. -/
theorem balance_invariant_preserved :
    (∀ (a a2 : Account) (amt : Int) (c : Bool),
        AccountInv a → adjust_balance a amt c = .ok a2 → AccountInv a2)
    ∧ (∀ (aid u now : Nat) (amt : Int) (cat : TransactionCategory)
        (s : LedgerState), StateInv s →
        StateInv (create_transaction aid amt cat u now s).1)
    ∧ (∀ (tid : Nat) (s : LedgerState), StateInv s →
        StateInv (void_transaction tid s).1)
    ∧ (∀ (fid u now : Nat) (s : LedgerState), StateInv s →
        StateInv (trigger_future_transaction fid u now s).1)
    ∧ (∀ (aid : Nat) (s : LedgerState), StateInv s →
        StateInv (recalculate_balance aid s).1) :=
  ⟨fun _ _ _ _ ha h => accountInv_adjust ha h,
   fun aid u now amt cat s hs => stateInv_create aid u now amt cat s hs,
   fun tid s hs => stateInv_void tid s hs,
   fun fid u now s hs => stateInv_trigger fid u now s hs,
   fun aid s hs => stateInv_recalculate aid s hs⟩

/-- C4, witness: the five conjuncts evaluated on concrete inputs. -/
theorem balance_invariant_preserved_witness :
    AccountInv { id := 1, currentBalance := 99300, availableBalance := 99300,
                 isActive := true, isDeleted := false }
    ∧ StateInv (create_transaction 1 500 .income 7 3 stManualDue).1
    ∧ StateInv (void_transaction 10 stManualDue).1
    ∧ StateInv (trigger_future_transaction 10 7 3 stManualDue).1
    ∧ StateInv (recalculate_balance 1 stRecalc).1 :=
  ⟨balance_invariant_preserved.1 acctMain _ 700 false (by decide) (by decide),
   balance_invariant_preserved.2.1 1 7 3 500 .income stManualDue (by decide),
   balance_invariant_preserved.2.2.1 10 stManualDue (by decide),
   balance_invariant_preserved.2.2.2.1 10 7 3 stManualDue (by decide),
   balance_invariant_preserved.2.2.2.2 1 stRecalc (by decide)⟩

/-- Account with nothing in it, target of the failing expense row. -/
def acctPoor : Account :=
  { id := 2, currentBalance := 0, availableBalance := 0,
    isActive := true, isDeleted := false }

/-- Automatic expense row due on day 7 against the empty account. -/
def ftAutoExp : FutureTransaction :=
  { id := 21, accountId := 2, amount := 500, category := .expense,
    status := some .scheduled, triggerType := .automatic, dueDate := 7,
    triggeredDate := none, processedDate := none, createdByUserId := 9,
    triggeredByUserId := none, scrappedByUserId := none, isDeleted := false }

/-- Automatic income row due on day 7 against the healthy account. -/
def ftAutoInc : FutureTransaction :=
  { id := 22, accountId := 1, amount := 200, category := .income,
    status := some .scheduled, triggerType := .automatic, dueDate := 7,
    triggeredDate := none, processedDate := none, createdByUserId := 9,
    triggeredByUserId := none, scrappedByUserId := none, isDeleted := false }

/-- Ledger with both automatic rows due on day 7. -/
def stScan : LedgerState :=
  { accounts := [acctPoor, acctMain], transactions := [],
    futures := [ftAutoExp, ftAutoInc], nextTxnId := 30 }

/-- State after the scan pass dies on the expense row: a dangling
status-less transaction was inserted, and nothing else changed. -/
def stScanFail : LedgerState :=
  { accounts := [acctPoor, acctMain],
    transactions := [{ id := 30, accountId := 2, amount := 500,
                       category := .expense, status := none,
                       processedDate := none, createdByUserId := 9,
                       isDeleted := false }],
    futures := [ftAutoExp, ftAutoInc], nextTxnId := 31 }

/-- C2, counterexample.  One scan pass over two due automatic rows: the
first (an expense against an empty account) fails at posting time — after
its Transaction row was already inserted and left with no status — and
the whole pass aborts, so the second row is never processed: the futures
table is returned unchanged with both rows still scheduled, and no
processed Transaction exists anywhere. -/
theorem scan_driver_cex :
    process_due_future 7 9 stScan = (stScanFail, .error .insufficientBalance) := by
  decide

/-- C2 (amended).  One pass of the scan driver handles each due automatic
row by first inserting a Transaction row (which keeps no status — it is
never marked processed), then posting the balance with the Balance
Engine's `current_balance` debit check (there is no prior
available-funds re-validation: an insufficient expense row still inserts
its Transaction before failing), then marking the FutureTransaction
processed; an exception on one row aborts the pass, so the remaining rows
of the batch are not processed. -/
theorem scan_driver_behavior :
    (∀ (fx : FutureTransaction) (now : Nat) (s : LedgerState) (acct : Account),
        getFutureByTxnId s fx.id = some fx →
        getAccount s fx.accountId = some acct →
        fx.category = .income → 0 < fx.amount →
        ∃ s', processOneDue fx now s = (s', .ok ()) ∧
          s'.transactions = s.transactions ++
            [{ id := s.nextTxnId, accountId := fx.accountId, amount := fx.amount,
               category := fx.category, status := none, processedDate := none,
               createdByUserId := fx.createdByUserId, isDeleted := false }] ∧
          getFutureByTxnId s' fx.id =
            some { fx with status := some .processed, triggeredDate := some now,
                           processedDate := some now } ∧
          getAccount s' fx.accountId =
            some { acct with
                    currentBalance := acct.currentBalance + fx.amount,
                    availableBalance := acct.availableBalance + fx.amount })
    ∧ (∀ (fx : FutureTransaction) (now : Nat) (s : LedgerState) (acct : Account),
        getAccount s fx.accountId = some acct →
        fx.category = .expense → 0 < fx.amount →
        acct.currentBalance < fx.amount →
        processOneDue fx now s =
          ({ s with
               transactions := s.transactions ++
                 [{ id := s.nextTxnId, accountId := fx.accountId,
                    amount := fx.amount, category := fx.category,
                    status := none, processedDate := none,
                    createdByUserId := fx.createdByUserId, isDeleted := false }],
               nextTxnId := s.nextTxnId + 1 },
           .error .insufficientBalance))
    ∧ (∀ (fx : FutureTransaction) (rest : List FutureTransaction) (now : Nat)
        (s s1 : LedgerState) (e : Err),
        fx.triggerType = .automatic →
        processOneDue fx now s = (s1, .error e) →
        processDueRows (fx :: rest) now s = (s1, .error e)) := by
  refine ⟨?_, ?_, ?_⟩
  · intro fx now s acct hffind hacct hcat hpos
    have hle : ¬ fx.amount ≤ 0 := by omega
    have hprops := getFuture_props hffind
    have haprops := getAccount_props hacct
    have hacct' : getAccount
        { s with
            transactions := s.transactions ++
              [{ id := s.nextTxnId, accountId := fx.accountId, amount := fx.amount,
                 category := .income, status := none, processedDate := none,
                 createdByUserId := fx.createdByUserId, isDeleted := false }],
            nextTxnId := s.nextTxnId + 1 } fx.accountId = some acct := hacct
    have heval : processOneDue fx now s =
        (updateFuture
           (updateAccount
              { s with
                  transactions := s.transactions ++
                    [{ id := s.nextTxnId, accountId := fx.accountId,
                       amount := fx.amount, category := fx.category,
                       status := none, processedDate := none,
                       createdByUserId := fx.createdByUserId, isDeleted := false }],
                  nextTxnId := s.nextTxnId + 1 }
              { acct with
                  currentBalance := acct.currentBalance + fx.amount,
                  availableBalance := acct.availableBalance + fx.amount })
           { fx with status := some .processed, triggeredDate := some now,
                     processedDate := some now },
         .ok ()) := by
      simp [processOneDue, txnRepoCreate, hle, hacct', adjust_balance, hcat]
    refine ⟨_, heval, rfl, ?_, ?_⟩
    · have hff' : getFutureByTxnId
          (updateAccount
             { s with
                 transactions := s.transactions ++
                   [{ id := s.nextTxnId, accountId := fx.accountId,
                      amount := fx.amount, category := fx.category,
                      status := none, processedDate := none,
                      createdByUserId := fx.createdByUserId, isDeleted := false }],
                 nextTxnId := s.nextTxnId + 1 }
             { acct with
                 currentBalance := acct.currentBalance + fx.amount,
                 availableBalance := acct.availableBalance + fx.amount })
          fx.id = some fx := hffind
      exact getFuture_updateFuture hff' rfl hprops.2.2
    · rw [getAccount_updateFuture]
      exact getAccount_updateAccount hacct' haprops.2.1 haprops.2.2
  · intro fx now s acct hacct hcat hpos hlt
    have hle : ¬ fx.amount ≤ 0 := by omega
    have hacct' : getAccount
        { s with
            transactions := s.transactions ++
              [{ id := s.nextTxnId, accountId := fx.accountId, amount := fx.amount,
                 category := .expense, status := none, processedDate := none,
                 createdByUserId := fx.createdByUserId, isDeleted := false }],
            nextTxnId := s.nextTxnId + 1 } fx.accountId = some acct := hacct
    simp [processOneDue, txnRepoCreate, hle, hacct', adjust_balance, hcat, hlt]
  · intro fx rest now s s1 e hauto h
    simp [processDueRows, hauto, h]

/-- C2, witness: the abort conjunct applied to the concrete failing scan
batch — the failing expense row stops the pass before the healthy income
row. -/
theorem scan_driver_behavior_witness :
    processDueRows [ftAutoExp, ftAutoInc] 9 stScan =
      (stScanFail, .error .insufficientBalance) :=
  scan_driver_behavior.2.2 ftAutoExp [ftAutoInc] 9 stScan stScanFail
    .insufficientBalance (by decide) (by decide)

end Bank
